import Mathlib

/-!
# Verification of the STAIB RHEED control-panel core

A shallow embedding of the voltage-ramping and channel-state coordination
engine of `staib_control.py`, together with proofs of the specified
properties.  Voltages and wall-clock times are modelled as rationals;
the per-manager Python dictionaries (`_targets`, `_currents`, `_ramps`)
are modelled as insertion-ordered association lists, which matches
Python dict semantics (unique keys, insertion-ordered iteration,
in-place update keeps position).
-/

/-! ## Configuration constants (from `config.py`) -/

def ENERGY_IDLE : ℚ := 287/100

def FILAMENT_IDLE : ℚ := 413/100

def ENERGY_WORK : ℚ := 862/100

def FILAMENT_WORK : ℚ := 783/100

def GRID_CAL : ℚ := 323/100

def FOCUS_CAL : ℚ := 51/10

def X_CAL : ℚ := 272/100

def Y_CAL : ℚ := -228/100

def ENERGY_RAMP : ℚ := 8/100

def FILAMENT_RAMP : ℚ := 8/100

/-! ## Channel pin numbers (from `HardwareController.__init__`) -/

def GRID_CH : ℕ := 1

def FOCUS_CH : ℕ := 2

def BEAM_BLANKING_CH : ℕ := 3

def FILAMENT_CH : ℕ := 4

def ENERGY_CH : ℕ := 5

def DEFLECTION_X_CH : ℕ := 6

def DEFLECTION_Y_CH : ℕ := 7

def BEAM_ROCKING_CH : ℕ := 8

def COMPUTER_CONTROL_CH : ℕ := 11

/-! ## Association-list model of Python dictionaries -/

/-- `d.get(k)` as `Option`: the value stored under key `k`, if any. -/
def dictGet : List (ℕ × ℚ) → ℕ → Option ℚ
  | [], _ => none
  | (k, v) :: rest, ch => if k = ch then some v else dictGet rest ch

/-- `d[k] = v`: in-place update if the key exists (keeping its position,
as Python dicts do), appending a new entry otherwise. -/
def dictSet : List (ℕ × ℚ) → ℕ → ℚ → List (ℕ × ℚ)
  | [], ch, v => [(ch, v)]
  | (k, w) :: rest, ch, v =>
    if k = ch then (ch, v) :: rest else (k, w) :: dictSet rest ch v

/-- The keys of an association list, in order. -/
def keys (l : List (ℕ × ℚ)) : List ℕ := l.map Prod.fst

/-! ## `math.isclose` (Python standard library, default tolerances)

`math.isclose(a, b)` with the default `rel_tol=1e-09`, `abs_tol=0.0` is
`abs(a-b) <= max(rel_tol * max(abs(a), abs(b)), abs_tol)`. -/

def mathIsClose (a b : ℚ) : Prop :=
  |a - b| ≤ max (1/1000000000 * max |a| |b|) 0

instance (a b : ℚ) : Decidable (mathIsClose a b) := by
  unfold mathIsClose; infer_instance

/-- The Idle predicate of `safe_toggle_computer_control` / `closeEvent`:
`math.isclose(current_e, config.ENERGY_IDLE) and
 math.isclose(current_f, config.FILAMENT_IDLE)`. -/
def is_idle (current_e current_f : ℚ) : Prop :=
  mathIsClose current_e ENERGY_IDLE ∧ mathIsClose current_f FILAMENT_IDLE

instance (a b : ℚ) : Decidable (is_idle a b) := by
  unfold is_idle; infer_instance

/-- Python `int()` applied to a number: truncation toward zero. -/
def pyInt (q : ℚ) : ℤ := if 0 ≤ q then ⌊q⌋ else ⌈q⌉

/-! ## RampingManager (`staib_control.py`, class `RampingManager`) -/

/-- The mutable state of `RampingManager`: the `_targets`, `_currents`
and `_ramps` dictionaries plus `_last_update_time`. -/
structure RampState where
  targets : List (ℕ × ℚ)
  currents : List (ℕ × ℚ)
  ramps : List (ℕ × ℚ)
  lastUpdateTime : ℚ
deriving DecidableEq

/-- `self._currents.get(ch_val, 0.0)`. -/
def curVal (s : RampState) (ch : ℕ) : ℚ := (dictGet s.currents ch).getD 0

/-- `self._ramps.get(ch_val, 1.0)`. -/
def rampVal (s : RampState) (ch : ℕ) : ℚ := (dictGet s.ramps ch).getD 1

/-- `RampingManager.set_initial_state`: store target, current and ramp
rate for the channel and immediately write the voltage through the
controller.  The returned list is the hardware write issued. -/
def set_initial_state (s : RampState) (ch : ℕ) (voltage ramp_rate : ℚ) :
    RampState × List (ℕ × ℚ) :=
  ({ s with
      targets := dictSet s.targets ch voltage
      currents := dictSet s.currents ch voltage
      ramps := dictSet s.ramps ch ramp_rate }, [(ch, voltage)])

/-- `RampingManager.set_target`: if the channel has no `_currents`
record yet, initialise it to `0.0`; then store the new target and ramp
rate.  `_currents` is otherwise untouched and no write is issued. -/
def set_target (s : RampState) (ch : ℕ) (voltage ramp_rate : ℚ) : RampState :=
  { s with
      currents :=
        if (dictGet s.currents ch).isSome = true then s.currents
        else dictSet s.currents ch 0
      targets := dictSet s.targets ch voltage
      ramps := dictSet s.ramps ch ramp_rate }

/-- The Python bodies of `set_target` and `set_initial_state` contain no
`raise` or `assert`: embedded as fallible operations they always return
`ok`.  (Fallible embedding of `set_target`.) -/
def set_targetE (s : RampState) (ch : ℕ) (voltage ramp_rate : ℚ) :
    Except String RampState :=
  Except.ok (set_target s ch voltage ramp_rate)

/-- Fallible embedding of `set_initial_state`; the Python body cannot
raise, so the result is always `ok`. -/
def set_initial_stateE (s : RampState) (ch : ℕ) (voltage ramp_rate : ℚ) :
    Except String (RampState × List (ℕ × ℚ)) :=
  Except.ok (set_initial_state s ch voltage ramp_rate)

/-- One channel update of `_update_all_voltages`:
`new_v = min(current_v + max_change, target_v) if target_v > current_v
 else max(current_v - max_change, target_v)` with
`max_change = ramp_rate * delta_t`. -/
def stepV (current_v target_v ramp_rate delta_t : ℚ) : ℚ :=
  if target_v > current_v then min (current_v + ramp_rate * delta_t) target_v
  else max (current_v - ramp_rate * delta_t) target_v

/-- The `for ch_val, target_v in self._targets.items()` loop of
`_update_all_voltages`: walks the target entries in order, skipping
settled channels (`abs(current_v - target_v) < 0.001`), otherwise
updating `_currents[ch_val]` and recording the `set_voltage` call.
Returns the final `_currents` dictionary and the ordered list of
hardware writes. -/
def runEntries (ramps : List (ℕ × ℚ)) (delta_t : ℚ) :
    List (ℕ × ℚ) → List (ℕ × ℚ) → List (ℕ × ℚ) →
    List (ℕ × ℚ) × List (ℕ × ℚ)
  | [], currents, writes => (currents, writes)
  | (ch, target_v) :: rest, currents, writes =>
    let current_v := (dictGet currents ch).getD 0
    if |current_v - target_v| < 1/1000 then
      runEntries ramps delta_t rest currents writes
    else
      let new_v := stepV current_v target_v ((dictGet ramps ch).getD 1) delta_t
      runEntries ramps delta_t rest (dictSet currents ch new_v)
        (writes ++ [(ch, new_v)])

/-- `RampingManager._update_all_voltages` invoked at wall-clock time
`now`: advance `_last_update_time` to `now`, skip the tick entirely if
the elapsed time is non-positive, otherwise run the update loop.
Returns the new state and the list of `set_voltage` calls issued. -/
def update_all_voltages (s : RampState) (now : ℚ) :
    RampState × List (ℕ × ℚ) :=
  if now - s.lastUpdateTime ≤ 0 then
    ({ s with lastUpdateTime := now }, [])
  else
    (({ s with
        lastUpdateTime := now
        currents :=
          (runEntries s.ramps (now - s.lastUpdateTime) s.targets s.currents []).1 }),
      (runEntries s.ramps (now - s.lastUpdateTime) s.targets s.currents []).2)

/-! ## HardwareController (`staib_control.py`, class `HardwareController`) -/

/-- The observable state of `HardwareController`: whether the DLL
loaded (`self.dll is not None`), `self.device_open` and
`self.dummy_mode`. -/
structure HardwareController where
  dllLoaded : Bool
  device_open : Bool
  dummy_mode : Bool
deriving DecidableEq

/-- `HardwareController.__init__` with the outcome of
`windll.LoadLibrary` as a parameter: on an `OSError` the controller
starts in dummy (simulated) mode with no DLL handle. -/
def HardwareController.mkInit (loadOk : Bool) : HardwareController :=
  { dllLoaded := loadOk, device_open := false, dummy_mode := !loadOk }

/-- `HardwareController.open_device` with the outcome of
`USB3OpenDevice` as a parameter (`openOk` = "returned 0").  Returns the
new controller state and the Python return value. -/
def open_device (c : HardwareController) (openOk : Bool) :
    HardwareController × Bool :=
  if c.dummy_mode then ({ c with device_open := true }, true)
  else if c.dllLoaded then
    if openOk then ({ c with device_open := true }, true)
    else ({ c with device_open := false, dummy_mode := true }, false)
  else (c, false)

/-- `HardwareController.close_device`: clears `device_open`
(the physical `USB3CloseDevice` call is issued only when open, real
mode, DLL present; the state effect is the same either way). -/
def close_device (c : HardwareController) : HardwareController :=
  { c with device_open := false }

/-! ## Handover Coordinator (`MainWindow`) -/

/-- `int(max(time_e, time_f) * 1000)` for the estimated settle delay of
lines 429-431 and 477-479, where
`time_e = abs(current_e - config.ENERGY_IDLE) / config.ENERGY_RAMP` and
`time_f = abs(current_f - config.FILAMENT_IDLE) / config.FILAMENT_RAMP`. -/
def idle_settle_estimate (current_e current_f : ℚ) : ℚ :=
  max (|current_e - ENERGY_IDLE| / ENERGY_RAMP)
      (|current_f - FILAMENT_IDLE| / FILAMENT_RAMP) * 1000

/-- `MainWindow.set_idle_state`: the two slider updates emit
`voltageChanged`, which calls `set_target(ENERGY, ENERGY_IDLE,
ENERGY_RAMP)` and then `set_target(FILAMENT, FILAMENT_IDLE,
FILAMENT_RAMP)` on the ramping manager. -/
def set_idle_state (s : RampState) : RampState :=
  set_target (set_target s ENERGY_CH ENERGY_IDLE ENERGY_RAMP)
    FILAMENT_CH FILAMENT_IDLE FILAMENT_RAMP

/-- Outcome of `MainWindow.safe_toggle_computer_control`:
the immediate `set_voltage` calls performed, and the deferred
`QTimer.singleShot` write, if any, as `(delay_ms, channel, voltage)`. -/
structure ToggleResult where
  immediateWrites : List (ℕ × ℚ)
  scheduled : Option (ℤ × ℕ × ℚ)
deriving DecidableEq

/-- `MainWindow.safe_toggle_computer_control(voltage_value)`: read the
current ENERGY and FILAMENT values from the ramping manager; if the
Idle predicate holds, write COMPUTER_CONTROL immediately; otherwise
command the Idle ramp and schedule the COMPUTER_CONTROL write after
`int(max(time_e, time_f) * 1000) + 100` milliseconds. -/
def safe_toggle_computer_control (s : RampState) (voltage_value : ℚ) :
    RampState × ToggleResult :=
  if is_idle (curVal s ENERGY_CH) (curVal s FILAMENT_CH) then
    (s, ⟨[(COMPUTER_CONTROL_CH, voltage_value)], none⟩)
  else
    (set_idle_state s,
      ⟨[], some
        (pyInt (idle_settle_estimate (curVal s ENERGY_CH) (curVal s FILAMENT_CH)) + 100,
          COMPUTER_CONTROL_CH, voltage_value)⟩)

/-- The straight-line body of `MainWindow._perform_final_shutdown`, as
an ordered trace: write COMPUTER_CONTROL = 0, close the device session,
then close the window (which re-enters `closeEvent` with
`_is_shutting_down` set and completes the shutdown). -/
inductive FinalStep where
  | writeCC : ℚ → FinalStep
  | sessionClose : FinalStep
  | windowClose : FinalStep
deriving DecidableEq

/-- The ordered actions of `_perform_final_shutdown`. -/
def perform_final_shutdown : List FinalStep :=
  [FinalStep.writeCC 0, FinalStep.sessionClose, FinalStep.windowClose]

/-- Outcome of `MainWindow.closeEvent`: whether the close event was
accepted, whether the device session was closed immediately, whether an
Idle ramp was commanded, and the `QTimer.singleShot` delay for
`_perform_final_shutdown`, if one was scheduled. -/
structure CloseResult where
  accepted : Bool
  closedNow : Bool
  idleRampIssued : Bool
  scheduledDelay : Option ℤ
deriving DecidableEq

/-- `MainWindow.closeEvent`: if `_is_shutting_down`, accept.  If the
COMPUTER_CONTROL switch is off, close the device and accept.  Otherwise
ignore the event, ramp to Idle if not already there, and schedule
`_perform_final_shutdown` after `delay_ms` (0 when already idle,
`int(max(time_e, time_f) * 1000) + 100` otherwise). -/
def closeEvent (is_shutting_down cc_checked : Bool) (s : RampState) :
    RampState × CloseResult :=
  if is_shutting_down then (s, ⟨true, false, false, none⟩)
  else if cc_checked = false then (s, ⟨true, true, false, none⟩)
  else if is_idle (curVal s ENERGY_CH) (curVal s FILAMENT_CH) then
    (s, ⟨false, false, false, some 0⟩)
  else
    (set_idle_state s,
      ⟨false, false, true,
        some (pyInt (idle_settle_estimate (curVal s ENERGY_CH) (curVal s FILAMENT_CH)) + 100)⟩)

/-! ## Dictionary lemmas -/

theorem dictGet_dictSet_self (l : List (ℕ × ℚ)) (k : ℕ) (v : ℚ) :
    dictGet (dictSet l k v) k = some v := by
  induction l with
  | nil => simp [dictGet, dictSet]
  | cons e rest ih =>
    obtain ⟨k', v'⟩ := e
    by_cases h : k' = k
    · simp [dictSet, h, dictGet]
    · simp [dictSet, h, dictGet, ih]

theorem dictGet_dictSet_ne (l : List (ℕ × ℚ)) (k k' : ℕ) (v : ℚ)
    (h : k' ≠ k) : dictGet (dictSet l k v) k' = dictGet l k' := by
  have h2 : ¬(k = k') := fun hh => h hh.symm
  induction l with
  | nil => simp [dictGet, dictSet, h2]
  | cons e rest ih =>
    obtain ⟨k0, v0⟩ := e
    by_cases h0 : k0 = k
    · subst h0
      simp [dictSet, dictGet, h2]
    · simp [dictSet, h0, dictGet, ih]

/-! ## Update-loop lemmas -/

theorem runEntries_nil (ramps : List (ℕ × ℚ)) (delta_t : ℚ)
    (cur ws : List (ℕ × ℚ)) :
    runEntries ramps delta_t [] cur ws = (cur, ws) := rfl

theorem runEntries_cons (ramps : List (ℕ × ℚ)) (delta_t : ℚ)
    (ch : ℕ) (target_v : ℚ) (rest cur ws : List (ℕ × ℚ)) :
    runEntries ramps delta_t ((ch, target_v) :: rest) cur ws =
      if |(dictGet cur ch).getD 0 - target_v| < 1/1000 then
        runEntries ramps delta_t rest cur ws
      else
        runEntries ramps delta_t rest
          (dictSet cur ch
            (stepV ((dictGet cur ch).getD 0) target_v ((dictGet ramps ch).getD 1) delta_t))
          (ws ++ [(ch, stepV ((dictGet cur ch).getD 0) target_v ((dictGet ramps ch).getD 1) delta_t)]) := rfl

theorem runEntries_writes_mono (ramps : List (ℕ × ℚ)) (delta_t : ℚ)
    (w : ℕ × ℚ) :
    ∀ (entries cur ws : List (ℕ × ℚ)), w ∈ ws →
      w ∈ (runEntries ramps delta_t entries cur ws).2 := by
  intro entries
  induction entries with
  | nil => intro cur ws hw; simpa [runEntries_nil] using hw
  | cons e rest ih =>
    intro cur ws hw
    obtain ⟨ch, tv⟩ := e
    rw [runEntries_cons]
    split
    · exact ih _ _ hw
    · exact ih _ _ (List.mem_append_left _ hw)

theorem runEntries_currents_of_not_mem (ramps : List (ℕ × ℚ)) (delta_t : ℚ)
    (ch : ℕ) :
    ∀ (entries cur ws : List (ℕ × ℚ)), ch ∉ keys entries →
      dictGet (runEntries ramps delta_t entries cur ws).1 ch = dictGet cur ch := by
  intro entries
  induction entries with
  | nil => intro cur ws _; rw [runEntries_nil]
  | cons e rest ih =>
    intro cur ws hch
    obtain ⟨k, tv⟩ := e
    have hk : k ≠ ch := by
      intro hk; exact hch (by simp [keys, hk])
    have hrest : ch ∉ keys rest := by
      intro hm; exact hch (by simp [keys] at hm ⊢; exact Or.inr hm)
    rw [runEntries_cons]
    split
    · exact ih _ _ hrest
    · rw [ih _ _ hrest, dictGet_dictSet_ne _ _ _ _ (fun hh => hk hh.symm)]

theorem runEntries_writes_of_not_mem (ramps : List (ℕ × ℚ)) (delta_t : ℚ)
    (ch : ℕ) :
    ∀ (entries cur ws : List (ℕ × ℚ)), ch ∉ keys entries →
      ∀ w ∈ (runEntries ramps delta_t entries cur ws).2, w ∈ ws ∨ w.1 ≠ ch := by
  intro entries
  induction entries with
  | nil => intro cur ws _ w hw; rw [runEntries_nil] at hw; exact Or.inl hw
  | cons e rest ih =>
    intro cur ws hch w hw
    obtain ⟨k, tv⟩ := e
    have hk : k ≠ ch := by
      intro hk; exact hch (by simp [keys, hk])
    have hrest : ch ∉ keys rest := by
      intro hm; exact hch (by simp [keys] at hm ⊢; exact Or.inr hm)
    rw [runEntries_cons] at hw
    split at hw
    · exact ih _ _ hrest w hw
    · rcases ih _ _ hrest w hw with h | h
      · rcases List.mem_append.mp h with h | h
        · exact Or.inl h
        · right
          rcases List.mem_singleton.mp h with rfl
          exact hk
      · exact Or.inr h

theorem keys_cons (k : ℕ) (v : ℚ) (rest : List (ℕ × ℚ)) :
    keys ((k, v) :: rest) = k :: keys rest := rfl

theorem runEntries_settled (ramps : List (ℕ × ℚ)) (delta_t : ℚ) (ch : ℕ) (t : ℚ) :
    ∀ (entries cur ws : List (ℕ × ℚ)), (keys entries).Nodup →
      dictGet entries ch = some t →
      |(dictGet cur ch).getD 0 - t| < 1/1000 →
      dictGet (runEntries ramps delta_t entries cur ws).1 ch = dictGet cur ch ∧
      ∀ w ∈ (runEntries ramps delta_t entries cur ws).2, w ∈ ws ∨ w.1 ≠ ch := by
  intro entries
  induction entries with
  | nil => intro cur ws _ ht _; simp [dictGet] at ht
  | cons e rest ih =>
    intro cur ws hn ht hset
    obtain ⟨k, tv⟩ := e
    rw [keys_cons] at hn
    have hknotin : k ∉ keys rest := (List.nodup_cons.mp hn).1
    have hnrest : (keys rest).Nodup := (List.nodup_cons.mp hn).2
    by_cases hk : k = ch
    · subst hk
      have htv : tv = t := by
        simpa [dictGet] using ht
      subst htv
      rw [runEntries_cons, if_pos hset]
      exact ⟨runEntries_currents_of_not_mem _ _ _ _ _ _ hknotin,
        runEntries_writes_of_not_mem _ _ _ _ _ _ hknotin⟩
    · have ht' : dictGet rest ch = some t := by
        simpa [dictGet, hk] using ht
      rw [runEntries_cons]
      split
      · exact ih cur ws hnrest ht' hset
      · have hpres : dictGet (dictSet cur k
            (stepV ((dictGet cur k).getD 0) tv ((dictGet ramps k).getD 1) delta_t)) ch
            = dictGet cur ch :=
          dictGet_dictSet_ne _ _ _ _ (fun hh => hk hh.symm)
        have hset' : |(dictGet (dictSet cur k
            (stepV ((dictGet cur k).getD 0) tv ((dictGet ramps k).getD 1) delta_t)) ch).getD 0
              - t| < 1/1000 := by rw [hpres]; exact hset
        obtain ⟨h1, h2⟩ := ih _ _ hnrest ht' hset'
        refine ⟨by rw [h1, hpres], ?_⟩
        intro w hw
        rcases h2 w hw with h | h
        · rcases List.mem_append.mp h with h | h
          · exact Or.inl h
          · right
            rcases List.mem_singleton.mp h with rfl
            exact hk
        · exact Or.inr h

theorem runEntries_unsettled (ramps : List (ℕ × ℚ)) (delta_t : ℚ) (ch : ℕ) (t : ℚ) :
    ∀ (entries cur ws : List (ℕ × ℚ)), (keys entries).Nodup →
      dictGet entries ch = some t →
      ¬ |(dictGet cur ch).getD 0 - t| < 1/1000 →
      dictGet (runEntries ramps delta_t entries cur ws).1 ch =
        some (stepV ((dictGet cur ch).getD 0) t ((dictGet ramps ch).getD 1) delta_t) ∧
      (ch, stepV ((dictGet cur ch).getD 0) t ((dictGet ramps ch).getD 1) delta_t) ∈
        (runEntries ramps delta_t entries cur ws).2 := by
  intro entries
  induction entries with
  | nil => intro cur ws _ ht _; simp [dictGet] at ht
  | cons e rest ih =>
    intro cur ws hn ht hset
    obtain ⟨k, tv⟩ := e
    rw [keys_cons] at hn
    have hknotin : k ∉ keys rest := (List.nodup_cons.mp hn).1
    have hnrest : (keys rest).Nodup := (List.nodup_cons.mp hn).2
    by_cases hk : k = ch
    · subst hk
      have htv : tv = t := by
        simpa [dictGet] using ht
      subst htv
      rw [runEntries_cons, if_neg hset]
      constructor
      · rw [runEntries_currents_of_not_mem _ _ _ _ _ _ hknotin,
          dictGet_dictSet_self]
      · exact runEntries_writes_mono _ _ _ _ _ _
          (List.mem_append_right _ (List.mem_singleton.mpr rfl))
    · have ht' : dictGet rest ch = some t := by
        simpa [dictGet, hk] using ht
      rw [runEntries_cons]
      split
      · exact ih cur ws hnrest ht' hset
      · have hpres : dictGet (dictSet cur k
            (stepV ((dictGet cur k).getD 0) tv ((dictGet ramps k).getD 1) delta_t)) ch
            = dictGet cur ch :=
          dictGet_dictSet_ne _ _ _ _ (fun hh => hk hh.symm)
        have hset' : ¬ |(dictGet (dictSet cur k
            (stepV ((dictGet cur k).getD 0) tv ((dictGet ramps k).getD 1) delta_t)) ch).getD 0
              - t| < 1/1000 := by rw [hpres]; exact hset
        obtain ⟨h1, h2⟩ := ih _ _ hnrest ht' hset'
        rw [hpres] at h1 h2
        exact ⟨h1, h2⟩

/-! ## Arithmetic properties of one channel step -/

theorem stepV_eq_move (c t r delta_t : ℚ) (h : c ≠ t) :
    stepV c t r delta_t =
      c + (if c < t then 1 else -1) * min (r * delta_t) |t - c| := by
  unfold stepV
  rcases lt_or_gt_of_ne h with hlt | hgt
  · rw [if_pos hlt, if_pos hlt, abs_of_pos (by linarith : (0:ℚ) < t - c)]
    rcases le_total (r * delta_t) (t - c) with h1 | h1
    · rw [min_eq_left h1, min_eq_left (by linarith : c + r * delta_t ≤ t)]
      ring
    · rw [min_eq_right h1, min_eq_right (by linarith : t ≤ c + r * delta_t)]
      ring
  · rw [if_neg (not_lt.mpr (le_of_lt hgt)), if_neg (not_lt.mpr (le_of_lt hgt)),
      abs_of_neg (by linarith : t - c < 0)]
    rcases le_total (r * delta_t) (c - t) with h1 | h1
    · rw [min_eq_left (by linarith : r * delta_t ≤ -(t - c)),
        max_eq_left (by linarith : t ≤ c - r * delta_t)]
      ring
    · rw [min_eq_right (by linarith : -(t - c) ≤ r * delta_t),
        max_eq_right (by linarith : c - r * delta_t ≤ t)]
      ring

theorem stepV_no_overshoot (c t r delta_t : ℚ) (hr : 0 ≤ r) (hd : 0 ≤ delta_t) :
    |stepV c t r delta_t - t| ≤ |c - t| ∧
    0 ≤ (t - stepV c t r delta_t) * (t - c) ∧
    |stepV c t r delta_t - c| ≤ r * delta_t := by
  have hrd : 0 ≤ r * delta_t := mul_nonneg hr hd
  unfold stepV
  rcases lt_or_le c t with hlt | hle
  · rw [if_pos hlt]
    have h1 : c ≤ min (c + r * delta_t) t := le_min (by linarith) (le_of_lt hlt)
    have h2 : min (c + r * delta_t) t ≤ t := min_le_right _ _
    have h3 : min (c + r * delta_t) t ≤ c + r * delta_t := min_le_left _ _
    refine ⟨?_, ?_, ?_⟩
    · rw [abs_of_nonpos (by linarith), abs_of_neg (by linarith : c - t < 0)]
      linarith
    · apply mul_nonneg <;> linarith
    · rw [abs_of_nonneg (by linarith)]; linarith
  · rw [if_neg (not_lt.mpr hle)]
    have h1 : max (c - r * delta_t) t ≤ c := max_le (by linarith) hle
    have h2 : t ≤ max (c - r * delta_t) t := le_max_right _ _
    have h3 : c - r * delta_t ≤ max (c - r * delta_t) t := le_max_left _ _
    refine ⟨?_, ?_, ?_⟩
    · rw [abs_of_nonneg (by linarith), abs_of_nonneg (by linarith : 0 ≤ c - t)]
      linarith
    · apply mul_nonneg_of_nonpos_of_nonpos <;> linarith
    · rw [abs_of_nonpos (by linarith)]; linarith

/-! ## `pyInt` bounds (truncation of a non-negative number) -/

theorem pyInt_le (q : ℚ) (h : 0 ≤ q) : (pyInt q : ℚ) ≤ q := by
  unfold pyInt
  rw [if_pos h]
  exact Int.floor_le q

theorem lt_pyInt_add_one (q : ℚ) (h : 0 ≤ q) : q < (pyInt q : ℚ) + 1 := by
  unfold pyInt
  rw [if_pos h]
  exact_mod_cast Int.lt_floor_add_one q

theorem idle_settle_estimate_nonneg (a b : ℚ) : 0 ≤ idle_settle_estimate a b := by
  unfold idle_settle_estimate
  have h1 : 0 ≤ |a - ENERGY_IDLE| / ENERGY_RAMP :=
    div_nonneg (abs_nonneg _) (by norm_num [ENERGY_RAMP])
  have h2 : 0 ≤ |b - FILAMENT_IDLE| / FILAMENT_RAMP :=
    div_nonneg (abs_nonneg _) (by norm_num [FILAMENT_RAMP])
  have := le_max_left (|a - ENERGY_IDLE| / ENERGY_RAMP) (|b - FILAMENT_IDLE| / FILAMENT_RAMP)
  nlinarith [le_trans h1 this]

/-! ## Tick helper lemmas -/

theorem tick_skip_eq (s : RampState) (now : ℚ) (h : now - s.lastUpdateTime ≤ 0) :
    update_all_voltages s now = ({ s with lastUpdateTime := now }, []) := by
  unfold update_all_voltages
  rw [if_pos h]

theorem tick_run_eq (s : RampState) (now : ℚ) (h : ¬ now - s.lastUpdateTime ≤ 0) :
    update_all_voltages s now =
      (({ s with
          lastUpdateTime := now
          currents :=
            (runEntries s.ramps (now - s.lastUpdateTime) s.targets s.currents []).1 }),
        (runEntries s.ramps (now - s.lastUpdateTime) s.targets s.currents []).2) := by
  unfold update_all_voltages
  rw [if_neg h]

/-! ## Claims -/

/-- Claim C7: `set_target` updates the channel's target and ramp rate,
leaves `_currents` untouched when the channel already has a record, and
initialises the record to `0.0` otherwise, so subsequent ticks ramp
from `0.0` toward the new target. -/
theorem set_target_frame (s : RampState) (ch : ℕ) (voltage ramp_rate : ℚ) :
    dictGet (set_target s ch voltage ramp_rate).targets ch = some voltage ∧
    dictGet (set_target s ch voltage ramp_rate).ramps ch = some ramp_rate ∧
    (set_target s ch voltage ramp_rate).currents =
      (if (dictGet s.currents ch).isSome = true then s.currents
       else dictSet s.currents ch 0) ∧
    curVal (set_target s ch voltage ramp_rate) ch =
      (if (dictGet s.currents ch).isSome = true then curVal s ch else 0) := by
  refine ⟨?_, ?_, rfl, ?_⟩
  · show dictGet (dictSet s.targets ch voltage) ch = some voltage
    exact dictGet_dictSet_self _ _ _
  · show dictGet (dictSet s.ramps ch ramp_rate) ch = some ramp_rate
    exact dictGet_dictSet_self _ _ _
  · by_cases h : (dictGet s.currents ch).isSome = true
    · rw [if_pos h]
      show (dictGet (if (dictGet s.currents ch).isSome = true then s.currents
        else dictSet s.currents ch 0) ch).getD 0 = curVal s ch
      rw [if_pos h]
      rfl
    · rw [if_neg h]
      show (dictGet (if (dictGet s.currents ch).isSome = true then s.currents
        else dictSet s.currents ch 0) ch).getD 0 = 0
      rw [if_neg h, dictGet_dictSet_self]
      rfl

/-- Claim C8: a tick whose elapsed time is non-positive is skipped:
no hardware write is issued and every channel's current, target and
ramp-rate records are unchanged. -/
theorem tick_skipped_nonpositive_delta (s : RampState) (now : ℚ)
    (h : now - s.lastUpdateTime ≤ 0) :
    (update_all_voltages s now).2 = [] ∧
    (update_all_voltages s now).1.currents = s.currents ∧
    (update_all_voltages s now).1.targets = s.targets ∧
    (update_all_voltages s now).1.ramps = s.ramps := by
  rw [tick_skip_eq s now h]
  exact ⟨rfl, rfl, rfl, rfl⟩

/-- Witness for C8: a concrete skipped tick (`now` one second before
`_last_update_time`). -/
theorem tick_skipped_nonpositive_delta_witness :
    (update_all_voltages (RampState.mk [(5, 1)] [(5, 0)] [(5, 1)] 1) 0).2 = [] ∧
    (update_all_voltages (RampState.mk [(5, 1)] [(5, 0)] [(5, 1)] 1) 0).1.currents = [(5, 0)] ∧
    (update_all_voltages (RampState.mk [(5, 1)] [(5, 0)] [(5, 1)] 1) 0).1.targets = [(5, 1)] ∧
    (update_all_voltages (RampState.mk [(5, 1)] [(5, 0)] [(5, 1)] 1) 0).1.ramps = [(5, 1)] :=
  tick_skipped_nonpositive_delta (RampState.mk [(5, 1)] [(5, 0)] [(5, 1)] 1) 0 (by norm_num)

/-- Claim C5 counterexample: when the DLL loads but `USB3OpenDevice`
fails, `open_device` switches to dummy (simulated) mode but returns
`False`, not `True` — the operation does not report success. -/
theorem open_device_failure_reports_failure_cex :
    (open_device (HardwareController.mkInit true) false).2 = false ∧
    (open_device (HardwareController.mkInit true) false).1.dummy_mode = true :=
  ⟨rfl, rfl⟩

/-- Claim C5 amended: a driver-load failure makes `open_device` report
success in simulated mode; a device-open failure permanently switches
to simulated mode but reports failure for that invocation (every later
invocation reports success), and `dummy_mode` is never cleared by
`open_device` or `close_device`. -/
theorem open_device_fallback_amended (b b' : Bool) (c : HardwareController) :
    (open_device (HardwareController.mkInit false) b).2 = true ∧
    (open_device (HardwareController.mkInit false) b).1.dummy_mode = true ∧
    (open_device (open_device (HardwareController.mkInit true) false).1 b').2 = true ∧
    (open_device (open_device (HardwareController.mkInit true) false).1 b').1.dummy_mode = true ∧
    c.dummy_mode ≤ (open_device c b).1.dummy_mode ∧
    c.dummy_mode ≤ (close_device c).dummy_mode := by
  obtain ⟨d, o, m⟩ := c
  cases d <;> cases o <;> cases m <;> cases b <;> cases b' <;> decide

/-- Claim C9 counterexample: `set_target` and `set_initial_state`
invoked with channel 99 — a channel outside the policy table
(pins 1-8 and 11) and absent from every record — succeed silently
instead of failing fast. -/
theorem unknown_channel_silently_absorbed_cex :
    set_targetE (RampState.mk [] [] [] 0) 99 5 1 =
      Except.ok (RampState.mk [(99, 5)] [(99, 0)] [(99, 1)] 0) ∧
    set_initial_stateE (RampState.mk [] [] [] 0) 99 5 1 =
      Except.ok (RampState.mk [(99, 5)] [(99, 5)] [(99, 1)] 0, [(99, 5)]) :=
  ⟨rfl, rfl⟩

/-- Claim C9 amended: calls to `set_target` / `set_initial_state` with
a channel that has no record are silently absorbed: they never fail,
and `set_target` simply adds the channel with current `0.0` and the
requested target. -/
theorem unknown_channel_silently_absorbed_amended (s : RampState) (ch : ℕ)
    (voltage ramp_rate : ℚ) (h : dictGet s.currents ch = none) :
    (∃ s', set_targetE s ch voltage ramp_rate = Except.ok s') ∧
    dictGet (set_target s ch voltage ramp_rate).targets ch = some voltage ∧
    dictGet (set_target s ch voltage ramp_rate).currents ch = some 0 ∧
    (∃ r', set_initial_stateE s ch voltage ramp_rate = Except.ok r') := by
  refine ⟨⟨_, rfl⟩, ?_, ?_, ⟨_, rfl⟩⟩
  · show dictGet (dictSet s.targets ch voltage) ch = some voltage
    exact dictGet_dictSet_self _ _ _
  · show dictGet (if (dictGet s.currents ch).isSome = true then s.currents
      else dictSet s.currents ch 0) ch = some 0
    rw [h]
    show dictGet (dictSet s.currents ch 0) ch = some 0
    exact dictGet_dictSet_self _ _ _

/-- Witness for the amended C9: the unknown channel 99 on an empty
manager state. -/
theorem unknown_channel_silently_absorbed_amended_witness :
    (∃ s', set_targetE (RampState.mk [] [] [] 0) 99 5 1 = Except.ok s') ∧
    dictGet (set_target (RampState.mk [] [] [] 0) 99 5 1).targets 99 = some 5 ∧
    dictGet (set_target (RampState.mk [] [] [] 0) 99 5 1).currents 99 = some 0 ∧
    (∃ r', set_initial_stateE (RampState.mk [] [] [] 0) 99 5 1 = Except.ok r') :=
  unknown_channel_silently_absorbed_amended (RampState.mk [] [] [] 0) 99 5 1 rfl

/-- `math.isclose` at its default relative tolerance `1e-9` against a
reference value between 0 and 10 forces the deviation far below the
`0.001` settle threshold. -/
theorem mathIsClose_small (a b : ℚ) (hb0 : 0 ≤ b) (hb : b ≤ 10)
    (h : mathIsClose a b) : |a - b| < 1/1000 := by
  unfold mathIsClose at h
  have habs : |b| = b := abs_of_nonneg hb0
  have hmax0 : (0:ℚ) ≤ 1/1000000000 * max |a| |b| :=
    mul_nonneg (by norm_num) (le_trans (abs_nonneg b) (le_max_right _ _))
  rw [max_eq_left hmax0, habs] at h
  have htri : |a| - b ≤ |a - b| := by
    have h2 := abs_sub_abs_le_abs_sub a b
    rw [habs] at h2
    exact h2
  rcases le_total |a| b with hc | hc
  · rw [max_eq_right hc] at h
    linarith
  · rw [max_eq_left hc] at h
    linarith

/-- Claim C6 counterexample: ENERGY within `0.0005 < 0.001` of its Idle
preset (and FILAMENT exactly at its preset) does not satisfy the Idle
predicate, whose `math.isclose` relative tolerance (`1e-9`) is far
stricter than the `0.001` settle threshold. -/
theorem idle_predicate_tolerance_cex :
    |(28705/10000 : ℚ) - ENERGY_IDLE| < 1/1000 ∧
    |(413/100 : ℚ) - FILAMENT_IDLE| < 1/1000 ∧
    ¬ is_idle (28705/10000) (413/100) := by
  have he : (28705/10000 : ℚ) - ENERGY_IDLE = 1/2000 := by
    norm_num [ENERGY_IDLE]
  have hf : (413/100 : ℚ) - FILAMENT_IDLE = 0 := by
    norm_num [FILAMENT_IDLE]
  refine ⟨?_, ?_, ?_⟩
  · rw [he, abs_of_pos (by norm_num : (0:ℚ) < 1/2000)]
    norm_num
  · rw [hf, abs_zero]
    norm_num
  · intro hidle
    obtain ⟨h1, _⟩ := hidle
    unfold mathIsClose at h1
    rw [he, abs_of_pos (by norm_num : (0:ℚ) < 1/2000)] at h1
    have ha : |(28705/10000 : ℚ)| = 28705/10000 := abs_of_pos (by norm_num)
    have hb : |ENERGY_IDLE| = 287/100 := by
      unfold ENERGY_IDLE
      exact abs_of_pos (by norm_num)
    rw [ha, hb, max_eq_left (by norm_num : (287/100 : ℚ) ≤ 28705/10000)] at h1
    rw [max_eq_left (by norm_num : (0:ℚ) ≤ 1/1000000000 * (28705/10000))] at h1
    norm_num at h1

/-- Claim C6 amended: the Idle predicate's `math.isclose` tolerance
(relative `1e-9`) is strictly stricter than the `0.001` settle
threshold: whenever the Idle predicate holds, ENERGY and FILAMENT are
within the settle tolerance of their presets, but not conversely. -/
theorem idle_predicate_stricter_amended (current_e current_f : ℚ)
    (h : is_idle current_e current_f) :
    |current_e - ENERGY_IDLE| < 1/1000 ∧ |current_f - FILAMENT_IDLE| < 1/1000 := by
  obtain ⟨h1, h2⟩ := h
  constructor
  · exact mathIsClose_small _ _ (by norm_num [ENERGY_IDLE])
      (by norm_num [ENERGY_IDLE]) h1
  · exact mathIsClose_small _ _ (by norm_num [FILAMENT_IDLE])
      (by norm_num [FILAMENT_IDLE]) h2

/-- Witness for the amended C6: currents exactly at the Idle presets
satisfy the Idle predicate. -/
theorem idle_predicate_stricter_amended_witness :
    |(287/100 : ℚ) - ENERGY_IDLE| < 1/1000 ∧ |(413/100 : ℚ) - FILAMENT_IDLE| < 1/1000 :=
  idle_predicate_stricter_amended (287/100) (413/100)
    ⟨by unfold mathIsClose ENERGY_IDLE
        rw [sub_self, abs_zero]
        exact le_max_right _ _,
     by unfold mathIsClose FILAMENT_IDLE
        rw [sub_self, abs_zero]
        exact le_max_right _ _⟩

/-- Claim C2: on a tick with positive elapsed time, a channel with a
recorded target that is at least the settle tolerance away from its
current value moves by exactly `min(rampRate * delta_t, |target -
current|)` toward the target, the new current is committed through the
gateway, the distance to the target does not increase, and the sign of
`target - current` never flips. -/
theorem tick_moves_toward_target (s : RampState) (now : ℚ) (ch : ℕ) (t : ℚ)
    (hn : (keys s.targets).Nodup)
    (ht : dictGet s.targets ch = some t)
    (hdelta : 0 < now - s.lastUpdateTime)
    (hr : 0 ≤ rampVal s ch)
    (hfar : 1/1000 ≤ |curVal s ch - t|) :
    curVal (update_all_voltages s now).1 ch =
      curVal s ch + (if curVal s ch < t then 1 else -1) *
        min (rampVal s ch * (now - s.lastUpdateTime)) |t - curVal s ch| ∧
    (ch, curVal (update_all_voltages s now).1 ch) ∈ (update_all_voltages s now).2 ∧
    |curVal (update_all_voltages s now).1 ch - t| ≤ |curVal s ch - t| ∧
    0 ≤ (t - curVal (update_all_voltages s now).1 ch) * (t - curVal s ch) := by
  have hns : ¬ now - s.lastUpdateTime ≤ 0 := not_le.mpr hdelta
  have hnset : ¬ |(dictGet s.currents ch).getD 0 - t| < 1/1000 := not_lt.mpr hfar
  obtain ⟨h1, h2⟩ := runEntries_unsettled s.ramps (now - s.lastUpdateTime) ch t
    s.targets s.currents [] hn ht hnset
  have hcv : curVal (update_all_voltages s now).1 ch =
      stepV (curVal s ch) t (rampVal s ch) (now - s.lastUpdateTime) := by
    rw [tick_run_eq s now hns]
    show (dictGet (runEntries s.ramps (now - s.lastUpdateTime) s.targets s.currents []).1 ch).getD 0 = _
    rw [h1]
    rfl
  have hne : curVal s ch ≠ t := by
    intro he
    rw [he, sub_self, abs_zero] at hfar
    norm_num at hfar
  obtain ⟨b1, b2, _⟩ := stepV_no_overshoot (curVal s ch) t (rampVal s ch)
    (now - s.lastUpdateTime) hr (le_of_lt hdelta)
  refine ⟨?_, ?_, ?_, ?_⟩
  · rw [hcv]
    exact stepV_eq_move _ _ _ _ hne
  · rw [hcv, tick_run_eq s now hns]
    exact h2
  · rw [hcv]
    exact b1
  · rw [hcv]
    exact b2

/-- Witness for C2: ENERGY at 5.0 V ramping toward the 2.87 V Idle
preset at 0.08 V/s over a one-second tick. -/
theorem tick_moves_toward_target_witness :
    curVal (update_all_voltages (RampState.mk [(5, 287/100)] [(5, 5)] [(5, 2/25)] 0) 1).1 5 =
      curVal (RampState.mk [(5, 287/100)] [(5, 5)] [(5, 2/25)] 0) 5 +
        (if curVal (RampState.mk [(5, 287/100)] [(5, 5)] [(5, 2/25)] 0) 5 < 287/100 then 1 else -1) *
        min (rampVal (RampState.mk [(5, 287/100)] [(5, 5)] [(5, 2/25)] 0) 5 *
          (1 - (RampState.mk [(5, 287/100)] [(5, 5)] [(5, 2/25)] 0).lastUpdateTime))
          |287/100 - curVal (RampState.mk [(5, 287/100)] [(5, 5)] [(5, 2/25)] 0) 5| ∧
    (5, curVal (update_all_voltages (RampState.mk [(5, 287/100)] [(5, 5)] [(5, 2/25)] 0) 1).1 5) ∈
      (update_all_voltages (RampState.mk [(5, 287/100)] [(5, 5)] [(5, 2/25)] 0) 1).2 ∧
    |curVal (update_all_voltages (RampState.mk [(5, 287/100)] [(5, 5)] [(5, 2/25)] 0) 1).1 5 - 287/100| ≤
      |curVal (RampState.mk [(5, 287/100)] [(5, 5)] [(5, 2/25)] 0) 5 - 287/100| ∧
    0 ≤ (287/100 - curVal (update_all_voltages (RampState.mk [(5, 287/100)] [(5, 5)] [(5, 2/25)] 0) 1).1 5) *
      (287/100 - curVal (RampState.mk [(5, 287/100)] [(5, 5)] [(5, 2/25)] 0) 5) :=
  tick_moves_toward_target (RampState.mk [(5, 287/100)] [(5, 5)] [(5, 2/25)] 0) 1 5 (287/100)
    (by simp [keys])
    rfl
    (by norm_num)
    (by show (0:ℚ) ≤ 2/25
        norm_num)
    (by show (1/1000 : ℚ) ≤ |(5:ℚ) - 287/100|
        rw [show (5:ℚ) - 287/100 = 213/100 by norm_num,
          abs_of_pos (by norm_num : (0:ℚ) < 213/100)]
        norm_num)

/-- Claim C3: once a channel is within the settle tolerance of its
target, a further tick with the same target leaves its current value
unchanged and issues no hardware write for that channel. -/
theorem tick_settled_idempotent (s : RampState) (now : ℚ) (ch : ℕ) (t : ℚ)
    (hn : (keys s.targets).Nodup)
    (ht : dictGet s.targets ch = some t)
    (hset : |curVal s ch - t| < 1/1000) :
    curVal (update_all_voltages s now).1 ch = curVal s ch ∧
    ∀ w ∈ (update_all_voltages s now).2, w.1 ≠ ch := by
  rcases le_or_lt (now - s.lastUpdateTime) 0 with hle | hlt
  · rw [tick_skip_eq s now hle]
    refine ⟨rfl, ?_⟩
    intro w hw
    simp at hw
  · have hns : ¬ now - s.lastUpdateTime ≤ 0 := not_le.mpr hlt
    obtain ⟨h1, h2⟩ := runEntries_settled s.ramps (now - s.lastUpdateTime) ch t
      s.targets s.currents [] hn ht hset
    rw [tick_run_eq s now hns]
    constructor
    · show (dictGet (runEntries s.ramps (now - s.lastUpdateTime) s.targets s.currents []).1 ch).getD 0 = _
      rw [h1]
      rfl
    · intro w hw
      rcases h2 w hw with h | h
      · simp at h
      · exact h

/-- Witness for C3: a channel exactly at its target performs no write
on the next tick. -/
theorem tick_settled_idempotent_witness :
    curVal (update_all_voltages (RampState.mk [(5, 5)] [(5, 5)] [(5, 2/25)] 0) 1).1 5 =
      curVal (RampState.mk [(5, 5)] [(5, 5)] [(5, 2/25)] 0) 5 ∧
    ∀ w ∈ (update_all_voltages (RampState.mk [(5, 5)] [(5, 5)] [(5, 2/25)] 0) 1).2, w.1 ≠ 5 :=
  tick_settled_idempotent (RampState.mk [(5, 5)] [(5, 5)] [(5, 2/25)] 0) 1 5 5
    (by simp [keys])
    rfl
    (by show |(5:ℚ) - 5| < 1/1000
        rw [sub_self, abs_zero]
        norm_num)

/-- Any single tick moves a targeted channel by at most
`rampRate * (now - lastUpdateTime)` when the elapsed time is
non-negative. -/
theorem tick_move_bound (s : RampState) (now : ℚ) (ch : ℕ) (t : ℚ)
    (hn : (keys s.targets).Nodup)
    (ht : dictGet s.targets ch = some t)
    (hr : 0 ≤ rampVal s ch)
    (hd : 0 ≤ now - s.lastUpdateTime) :
    |curVal (update_all_voltages s now).1 ch - curVal s ch| ≤
      rampVal s ch * (now - s.lastUpdateTime) := by
  rcases le_or_lt (now - s.lastUpdateTime) 0 with hle | hlt
  · rw [tick_skip_eq s now hle]
    have hz : curVal { s with lastUpdateTime := now } ch = curVal s ch := rfl
    rw [hz, sub_self, abs_zero]
    exact mul_nonneg hr hd
  · have hns : ¬ now - s.lastUpdateTime ≤ 0 := not_le.mpr hlt
    by_cases hset : |(dictGet s.currents ch).getD 0 - t| < 1/1000
    · obtain ⟨h1, _⟩ := runEntries_settled s.ramps (now - s.lastUpdateTime) ch t
        s.targets s.currents [] hn ht hset
      rw [tick_run_eq s now hns]
      have hz : curVal ({ s with
          lastUpdateTime := now
          currents :=
            (runEntries s.ramps (now - s.lastUpdateTime) s.targets s.currents []).1 }) ch
          = curVal s ch := by
        show (dictGet (runEntries s.ramps (now - s.lastUpdateTime) s.targets s.currents []).1 ch).getD 0 = _
        rw [h1]
        rfl
      rw [hz, sub_self, abs_zero]
      exact mul_nonneg hr hd
    · obtain ⟨h1, _⟩ := runEntries_unsettled s.ramps (now - s.lastUpdateTime) ch t
        s.targets s.currents [] hn ht hset
      rw [tick_run_eq s now hns]
      have hz : curVal ({ s with
          lastUpdateTime := now
          currents :=
            (runEntries s.ramps (now - s.lastUpdateTime) s.targets s.currents []).1 }) ch
          = stepV (curVal s ch) t (rampVal s ch) (now - s.lastUpdateTime) := by
        show (dictGet (runEntries s.ramps (now - s.lastUpdateTime) s.targets s.currents []).1 ch).getD 0 = _
        rw [h1]
        rfl
      rw [hz]
      exact (stepV_no_overshoot (curVal s ch) t (rampVal s ch)
        (now - s.lastUpdateTime) hr hd).2.2

/-- Claim C10: a skipped (non-positive elapsed) tick still advances
`_last_update_time` to the tick's own time and leaves the currents
untouched, so the following tick measures its elapsed time from the
skipped tick: the voltage change it can apply is bounded by
`rampRate * (t2 - t1)`, not by the time elapsed since the last
effective tick. -/
theorem skipped_tick_resets_clock (s : RampState) (t1 t2 : ℚ) (ch : ℕ) (t : ℚ)
    (hskip : t1 - s.lastUpdateTime ≤ 0)
    (h12 : t1 ≤ t2)
    (hn : (keys s.targets).Nodup)
    (ht : dictGet s.targets ch = some t)
    (hr : 0 ≤ rampVal s ch) :
    (update_all_voltages s t1).1.lastUpdateTime = t1 ∧
    (update_all_voltages s t1).1.currents = s.currents ∧
    |curVal (update_all_voltages (update_all_voltages s t1).1 t2).1 ch -
        curVal (update_all_voltages s t1).1 ch| ≤ rampVal s ch * (t2 - t1) := by
  rw [tick_skip_eq s t1 hskip]
  refine ⟨rfl, rfl, ?_⟩
  have hb := tick_move_bound { s with lastUpdateTime := t1 } t2 ch t hn ht hr
    (by show (0:ℚ) ≤ t2 - t1; linarith)
  exact hb

/-- Witness for C10: last effective tick at time 5, skipped tick at
time 3, following tick at time 4. -/
theorem skipped_tick_resets_clock_witness :
    (update_all_voltages (RampState.mk [(5, 287/100)] [(5, 5)] [(5, 2/25)] 5) 3).1.lastUpdateTime = 3 ∧
    (update_all_voltages (RampState.mk [(5, 287/100)] [(5, 5)] [(5, 2/25)] 5) 3).1.currents = [(5, 5)] ∧
    |curVal (update_all_voltages
        (update_all_voltages (RampState.mk [(5, 287/100)] [(5, 5)] [(5, 2/25)] 5) 3).1 4).1 5 -
      curVal (update_all_voltages (RampState.mk [(5, 287/100)] [(5, 5)] [(5, 2/25)] 5) 3).1 5| ≤
      rampVal (RampState.mk [(5, 287/100)] [(5, 5)] [(5, 2/25)] 5) 5 * (4 - 3) :=
  skipped_tick_resets_clock (RampState.mk [(5, 287/100)] [(5, 5)] [(5, 2/25)] 5) 3 4 5 (287/100)
    (by show (3:ℚ) - 5 ≤ 0; norm_num)
    (by norm_num)
    (by simp [keys])
    rfl
    (by show (0:ℚ) ≤ 2/25; norm_num)

/-- Claim C1: a COMPUTER_CONTROL toggle requested while the Idle
predicate fails performs no immediate hardware write; it commands the
Idle ramp (ENERGY and FILAMENT targets become the Idle presets) and
schedules the COMPUTER_CONTROL write after
`int(max(|dE|/rampRateE, |dF|/rampRateF) * 1000) + 100` milliseconds —
a delay within the half-open interval
`(estimate + 99 ms, estimate + 100 ms]`, i.e. the estimated settle time
plus the fixed 100 ms safety margin at millisecond granularity. -/
theorem toggle_deferred_when_not_idle (s : RampState) (voltage_value : ℚ)
    (h : ¬ is_idle (curVal s ENERGY_CH) (curVal s FILAMENT_CH)) :
    (safe_toggle_computer_control s voltage_value).2.immediateWrites = [] ∧
    dictGet (safe_toggle_computer_control s voltage_value).1.targets ENERGY_CH =
      some ENERGY_IDLE ∧
    dictGet (safe_toggle_computer_control s voltage_value).1.targets FILAMENT_CH =
      some FILAMENT_IDLE ∧
    (safe_toggle_computer_control s voltage_value).2.scheduled =
      some (pyInt (idle_settle_estimate (curVal s ENERGY_CH) (curVal s FILAMENT_CH)) + 100,
        COMPUTER_CONTROL_CH, voltage_value) ∧
    idle_settle_estimate (curVal s ENERGY_CH) (curVal s FILAMENT_CH) + 99 <
      ((pyInt (idle_settle_estimate (curVal s ENERGY_CH) (curVal s FILAMENT_CH)) + 100 : ℤ) : ℚ) ∧
    ((pyInt (idle_settle_estimate (curVal s ENERGY_CH) (curVal s FILAMENT_CH)) + 100 : ℤ) : ℚ) ≤
      idle_settle_estimate (curVal s ENERGY_CH) (curVal s FILAMENT_CH) + 100 := by
  have hq : 0 ≤ idle_settle_estimate (curVal s ENERGY_CH) (curVal s FILAMENT_CH) :=
    idle_settle_estimate_nonneg _ _
  have hlo := lt_pyInt_add_one _ hq
  have hhi := pyInt_le _ hq
  unfold safe_toggle_computer_control
  rw [if_neg h]
  refine ⟨rfl, ?_, ?_, rfl, ?_, ?_⟩
  · show dictGet (set_idle_state s).targets ENERGY_CH = some ENERGY_IDLE
    show dictGet (dictSet (dictSet s.targets ENERGY_CH ENERGY_IDLE)
      FILAMENT_CH FILAMENT_IDLE) ENERGY_CH = some ENERGY_IDLE
    rw [dictGet_dictSet_ne _ _ _ _ (by decide : ENERGY_CH ≠ FILAMENT_CH),
      dictGet_dictSet_self]
  · show dictGet (set_idle_state s).targets FILAMENT_CH = some FILAMENT_IDLE
    show dictGet (dictSet (dictSet s.targets ENERGY_CH ENERGY_IDLE)
      FILAMENT_CH FILAMENT_IDLE) FILAMENT_CH = some FILAMENT_IDLE
    rw [dictGet_dictSet_self]
  · push_cast
    linarith
  · push_cast
    linarith

/-- Witness for C1: the spec's handover scenario, ENERGY = FILAMENT =
5.0 V with Idle presets 2.87 V / 4.13 V. -/
theorem toggle_deferred_when_not_idle_witness :
    (safe_toggle_computer_control (RampState.mk [] [(5, 5), (4, 5)] [] 0) 1).2.immediateWrites = [] ∧
    dictGet (safe_toggle_computer_control (RampState.mk [] [(5, 5), (4, 5)] [] 0) 1).1.targets ENERGY_CH =
      some ENERGY_IDLE ∧
    dictGet (safe_toggle_computer_control (RampState.mk [] [(5, 5), (4, 5)] [] 0) 1).1.targets FILAMENT_CH =
      some FILAMENT_IDLE ∧
    (safe_toggle_computer_control (RampState.mk [] [(5, 5), (4, 5)] [] 0) 1).2.scheduled =
      some (pyInt (idle_settle_estimate
          (curVal (RampState.mk [] [(5, 5), (4, 5)] [] 0) ENERGY_CH)
          (curVal (RampState.mk [] [(5, 5), (4, 5)] [] 0) FILAMENT_CH)) + 100,
        COMPUTER_CONTROL_CH, 1) ∧
    idle_settle_estimate (curVal (RampState.mk [] [(5, 5), (4, 5)] [] 0) ENERGY_CH)
        (curVal (RampState.mk [] [(5, 5), (4, 5)] [] 0) FILAMENT_CH) + 99 <
      ((pyInt (idle_settle_estimate
          (curVal (RampState.mk [] [(5, 5), (4, 5)] [] 0) ENERGY_CH)
          (curVal (RampState.mk [] [(5, 5), (4, 5)] [] 0) FILAMENT_CH)) + 100 : ℤ) : ℚ) ∧
    ((pyInt (idle_settle_estimate
        (curVal (RampState.mk [] [(5, 5), (4, 5)] [] 0) ENERGY_CH)
        (curVal (RampState.mk [] [(5, 5), (4, 5)] [] 0) FILAMENT_CH)) + 100 : ℤ) : ℚ) ≤
      idle_settle_estimate (curVal (RampState.mk [] [(5, 5), (4, 5)] [] 0) ENERGY_CH)
        (curVal (RampState.mk [] [(5, 5), (4, 5)] [] 0) FILAMENT_CH) + 100 :=
  toggle_deferred_when_not_idle (RampState.mk [] [(5, 5), (4, 5)] [] 0) 1
    (by intro hidle
        obtain ⟨h1, _⟩ := hidle
        have h1' : |(5:ℚ) - ENERGY_IDLE| ≤
            max (1/1000000000 * max |(5:ℚ)| |ENERGY_IDLE|) 0 := h1
        rw [show (5:ℚ) - ENERGY_IDLE = 213/100 by norm_num [ENERGY_IDLE],
          abs_of_pos (by norm_num : (0:ℚ) < 213/100),
          abs_of_pos (by norm_num : (0:ℚ) < (5:ℚ)),
          show |ENERGY_IDLE| = 287/100 by
            unfold ENERGY_IDLE
            exact abs_of_pos (by norm_num),
          max_eq_left (by norm_num : (287/100:ℚ) ≤ 5),
          max_eq_left (by norm_num : (0:ℚ) ≤ 1/1000000000 * 5)] at h1'
        norm_num at h1')

/-- Claim C4: on a shutdown request, COMPUTER_CONTROL off means the
session is closed immediately and the event accepted; COMPUTER_CONTROL
on means the event is deferred (not accepted, nothing closed yet), an
Idle ramp is commanded exactly when not already idle, a final-shutdown
callback is scheduled after the estimated delay (zero when already
idle), and that callback sets COMPUTER_CONTROL to 0, closes the
session, and only then completes the shutdown, in that order. -/
theorem shutdown_gated_on_idle (s : RampState) (cc : Bool) :
    closeEvent false false s = (s, ⟨true, true, false, none⟩) ∧
    (closeEvent false true s).2.accepted = false ∧
    (closeEvent false true s).2.closedNow = false ∧
    (closeEvent false true s).2.scheduledDelay =
      some (if is_idle (curVal s ENERGY_CH) (curVal s FILAMENT_CH) then 0
        else pyInt (idle_settle_estimate (curVal s ENERGY_CH) (curVal s FILAMENT_CH)) + 100) ∧
    ((closeEvent false true s).2.idleRampIssued = true ↔
      ¬ is_idle (curVal s ENERGY_CH) (curVal s FILAMENT_CH)) ∧
    (closeEvent false true s).1 =
      (if is_idle (curVal s ENERGY_CH) (curVal s FILAMENT_CH) then s else set_idle_state s) ∧
    perform_final_shutdown =
      [FinalStep.writeCC 0, FinalStep.sessionClose, FinalStep.windowClose] ∧
    (closeEvent true cc s).2.accepted = true := by
  by_cases h : is_idle (curVal s ENERGY_CH) (curVal s FILAMENT_CH)
  · simp [closeEvent, h, perform_final_shutdown]
  · simp [closeEvent, h, perform_final_shutdown]
